import Mathlib

/-!
Verification of the experiment-specification normalizer and validator of the
`ray.tune` experiment layer, together with its closure-serializability
diagnoser.  The repository ships the test suite
(`python/ray/tune/tests/test_experiment.py`); the implementation itself
(`Experiment.__init__`, `_convert_to_experiment_list`,
`diagnose_serialization`) is not among the provided source files, so the
definitions below are modelled from the specification, with the behaviour
asserted by the in-repository tests taken as authoritative wherever the two
speak about the same scenario.
-/

namespace RayTune

/-- Values stored in a config mapping (the spec only requires "arbitrary
values"; naturals and strings suffice for every scenario the tests cover). -/
inductive Value where
  | nat (n : Nat)
  | str (s : String)
  deriving DecidableEq, Repr

/-- A config mapping: an association list from string keys to values, kept in
insertion order, mirroring a Python `dict`. -/
abbrev ConfigMap := List (String × Value)

/-- The two trainable kinds the validator distinguishes: stateless function
trainables and stateful class trainables with a checkpoint/restore
lifecycle. -/
inductive TrainableKind where
  | functionKind
  | classKind
  deriving DecidableEq, Repr

/-- Modelled from the spec: the `trainable` field of a run definition is a
reference to "a callable or a registered-name string identifying one"
(`Experiment`'s `run` argument is not in the provided sources).  An
unregistered bare callable is always a function trainable. -/
inductive Trainable where
  | registered (name : String)
  | bareCallable (id : Nat)
  deriving DecidableEq, Repr

/-- Modelled from the spec: the external registry component, consulted only
through a kind query ("is this trainable name bound to a function or a
class?"). -/
abbrev Registry := String → TrainableKind

/-- Resolve the kind of a trainable reference: registered names are looked up
in the registry; an unregistered bare callable resolves to a function
trainable. -/
def resolveKind (reg : Registry) : Trainable → TrainableKind
  | .registered n => reg n
  | .bareCallable _ => .functionKind

/-- The `CheckpointConfig` input shape:
`{checkpoint_at_end : bool = false, checkpoint_frequency : int | None = None}`. -/
structure CheckpointConfig where
  checkpoint_at_end : Bool
  checkpoint_frequency : Option Nat
  deriving DecidableEq, Repr

/-- The default checkpoint policy: no checkpointing requested. -/
def CheckpointConfig.defaultPolicy : CheckpointConfig := ⟨false, none⟩

/-- Modelled from the spec: the shapes a raw `config` argument can take.  A
plain mapping, an object exposing a `to_dict`-style "to mapping" conversion
capability (represented by the mapping its conversion would yield), or any
other scalar value such as the literal string used by the tests. -/
inductive ConfigInput where
  | mapping (m : ConfigMap)
  | convertible (to_dict : ConfigMap)
  | scalar (s : String)
  deriving DecidableEq, Repr

/-- The error taxonomy of the core: invalid normalizer input, invalid config
type, checkpoint policy requested for a trainable kind that cannot support it
(carrying the offending field's name), and an empty run name. -/
inductive TuneError where
  | invalidSpec
  | configType
  | checkpointPolicy (field : String)
  | invalidName
  deriving DecidableEq, Repr

/-- The canonical unit of work: a fully validated run definition. -/
structure Experiment where
  name : String
  run : Trainable
  config : ConfigMap
  checkpoint_config : CheckpointConfig
  deriving DecidableEq, Repr

/-- Modelled from the spec: construction-time validation of a run definition
(`Experiment.__init__` is not in the provided sources).  Checks run in the
spec's order: (1) the config must be a mapping — the in-repository test
`testInvalidExperimentConfig` asserts that even an object exposing a correct
`to_dict` conversion is rejected until the caller converts it, so only the
`mapping` shape is accepted; (2) a checkpoint policy with `checkpoint_at_end`
set or a non-`None` `checkpoint_frequency` is rejected when the trainable
resolves to a function trainable, naming the offending field; (3) the name
must be non-empty.  An invalid instance is never produced. -/
def mkExperiment (reg : Registry) (name : String) (run : Trainable)
    (config : ConfigInput) (ckpt : CheckpointConfig) :
    Except TuneError Experiment :=
  match config with
  | .convertible _ => .error .configType
  | .scalar _ => .error .configType
  | .mapping m =>
    if ckpt.checkpoint_at_end || ckpt.checkpoint_frequency.isSome then
      match resolveKind reg run with
      | .functionKind =>
        .error (.checkpointPolicy
          (if ckpt.checkpoint_at_end then "checkpoint_at_end"
           else "checkpoint_frequency"))
      | .classKind =>
        if name = "" then .error .invalidName
        else .ok ⟨name, run, m, ckpt⟩
    else
      if name = "" then .error .invalidName
      else .ok ⟨name, run, m, ckpt⟩

/-- Raw fields from which a run definition is built when the normalizer's
input maps names to spec-fields. -/
structure RunSpecFields where
  run : Trainable
  config : ConfigInput
  checkpoint_config : CheckpointConfig
  deriving DecidableEq, Repr

/-- Modelled from the spec: the closed sum of recognized normalizer input
shapes — absent, a single already-constructed spec, a sequence of specs, a
name-keyed mapping of raw fields (in insertion order), or anything else
(e.g. a bare string). -/
inductive SpecInput where
  | absent
  | single (e : Experiment)
  | many (es : List Experiment)
  | named (m : List (String × RunSpecFields))
  | other (s : String)
  deriving DecidableEq, Repr

/-- Construct one run definition per mapping entry, the name taken from the
key, failing fast on the first invalid entry. -/
def normalizeNamed (reg : Registry) :
    List (String × RunSpecFields) → Except TuneError (List Experiment)
  | [] => .ok []
  | (n, f) :: rest =>
    match mkExperiment reg n f.run f.config f.checkpoint_config with
    | .error e => .error e
    | .ok exp =>
      match normalizeNamed reg rest with
      | .error e => .error e
      | .ok l => .ok (exp :: l)

/-- Modelled from the spec: `_convert_to_experiment_list`, the spec
normalizer.  `None` yields the empty list, a single spec a one-element list,
a sequence is passed through in order, a name-keyed mapping builds one run
definition per entry in mapping iteration order, and any other shape fails
with `InvalidSpecError`. -/
def normalize (reg : Registry) : SpecInput → Except TuneError (List Experiment)
  | .absent => .ok []
  | .single e => .ok [e]
  | .many es => .ok es
  | .named m => normalizeNamed reg m
  | .other _ => .error .invalidSpec

/-- A registry binding used by concrete witnesses: `"f1"` is a function
trainable (as registered by the test suite's `setUp`) and `"cls"` a class
trainable. -/
def testRegistry : Registry := fun s =>
  if s = "cls" then .classKind else .functionKind

/-! ## Serialization diagnoser -/

/-- Modelled from the spec: the runtime objects a callable's captured
environment can hold (`diagnose_serialization` and the objects it inspects
are not in the provided sources).  Synchronization primitives (such as
`threading.Event`), open file handles and thread objects fail to serialize;
plain atoms serialize; a composite serializes exactly when all its attribute
references do. -/
inductive PyObj where
  | syncPrimitive (kind : String)
  | fileHandle (path : String)
  | plainAtom (v : Value)
  | composite (kind : String) (attrs : List (String × PyObj))

mutual

/-- Whether a single object serializes in isolation. -/
def serializable : PyObj → Bool
  | .syncPrimitive _ => false
  | .fileHandle _ => false
  | .plainAtom _ => true
  | .composite _ attrs => attrsSerializable attrs

/-- Whether every object of a named reference list serializes. -/
def attrsSerializable : List (String × PyObj) → Bool
  | [] => true
  | (_, o) :: rest => serializable o && attrsSerializable rest

end

mutual

/-- The number of nodes reachable from an object (a bound for the
breadth-first traversal). -/
def objCount : PyObj → Nat
  | .composite _ attrs => 1 + attrsCount attrs
  | _ => 1

/-- The number of nodes reachable from a named reference list. -/
def attrsCount : List (String × PyObj) → Nat
  | [] => 0
  | (_, o) :: rest => objCount o + attrsCount rest

end

/-- Modelled from the spec: the capability interface
`InspectableCallable { captured_references() -> seq<(name, value)> }`.
`captured_references` are the closed-over variables of the callable;
`internal_constructions` records objects the body builds and uses locally —
they are code, not captured data, so serialization never touches them. -/
structure InspectableCallable where
  captured_references : List (String × PyObj)
  internal_constructions : List PyObj

/-- The full dry-run serialization of a callable, including its captured
environment, succeeds exactly when every captured reference serializes. -/
def dryRunSerializes (f : InspectableCallable) : Bool :=
  attrsSerializable f.captured_references

/-- The informative result of a failed diagnosis: either a root cause with a
human-readable access path, or the generic fallback when no single reference
reproduces the failure in isolation. -/
inductive DiagnosticReport where
  | rootCause (path : String) (name : String) (value : PyObj)
  | unableToIsolate

/-- The result of `diagnose`: `true` (the callable serializes) or a
diagnostic report. -/
inductive DiagnoseResult where
  | isTrue
  | report (r : DiagnosticReport)

/-- A breadth-first queue entry: reference name, access path, object. -/
abbrev BfsEntry := String × String × PyObj

/-- The child entries of an object: the attribute references of a composite,
with the access path extended by the attribute name. -/
def childEntries (path : String) : PyObj → List BfsEntry
  | .composite _ attrs => attrs.map (fun a => (a.1, path ++ "." ++ a.1, a.2))
  | _ => []

/-- Breadth-first traversal of captured references, attempting to serialize
each entry independently; returns the first entry (in traversal order) that
fails to serialize on its own, descending into attribute references of
serializable composites, up to the fuel bound. -/
def firstFailing : Nat → List BfsEntry → Option BfsEntry
  | 0, _ => none
  | _ + 1, [] => none
  | fuel + 1, (n, p, o) :: rest =>
    if serializable o then
      firstFailing fuel (rest ++ childEntries p o)
    else
      some (n, p, o)

/-- The initial breadth-first queue of a callable: one entry per captured
variable, in capture order. -/
def initialQueue (f : InspectableCallable) : List BfsEntry :=
  f.captured_references.map (fun c => (c.1, "captured variable " ++ c.1, c.2))

/-- Modelled from the spec: `diagnose_serialization`.  Attempt a full dry-run
serialization of the callable; on success return `true`.  On failure,
traverse the captured references breadth-first (bounded by the size of the
capture set) and report the first reference that itself fails to serialize,
with its access path; if none is found, report the generic
"unable to isolate cause" diagnostic. -/
def diagnose (f : InspectableCallable) : DiagnoseResult :=
  if dryRunSerializes f then .isTrue
  else
    match firstFailing (attrsCount f.captured_references + 1)
        (initialQueue f) with
    | some (n, p, o) => .report (.rootCause p n o)
    | none => .report .unableToIsolate

/-! ## Theorems -/

/-- Any successfully constructed run definition carries the name it was
constructed with. -/
theorem mkExperiment_name (reg : Registry) (n : String) (run : Trainable)
    (c : ConfigInput) (ckpt : CheckpointConfig) (e : Experiment)
    (h : mkExperiment reg n run c ckpt = .ok e) : e.name = n := by
  cases c with
  | convertible d => simp [mkExperiment] at h
  | scalar s => simp [mkExperiment] at h
  | mapping m =>
    simp only [mkExperiment] at h
    split at h
    · split at h
      · simp at h
      · split at h
        · simp at h
        · simp at h
          subst h
          rfl
    · split at h
      · simp at h
      · simp at h
        subst h
        rfl

/-- Normalizing a name-keyed mapping yields one run definition per entry,
named after its key, keys in order. -/
theorem normalizeNamed_names (reg : Registry)
    (m : List (String × RunSpecFields)) :
    ∀ l, normalizeNamed reg m = .ok l →
      l.length = m.length ∧ l.map Experiment.name = m.map Prod.fst := by
  induction m with
  | nil =>
    intro l h
    simp [normalizeNamed] at h
    subst h
    simp
  | cons p rest ih =>
    intro l h
    unfold normalizeNamed at h
    cases hmk : mkExperiment reg p.1 p.2.run p.2.config p.2.checkpoint_config with
    | error e => rw [hmk] at h; simp at h
    | ok exp =>
      rw [hmk] at h
      cases hrest : normalizeNamed reg rest with
      | error e => rw [hrest] at h; simp at h
      | ok l2 =>
        rw [hrest] at h
        simp at h
        subst h
        obtain ⟨hlen, hnames⟩ := ih l2 hrest
        refine ⟨by simp [hlen], ?_⟩
        simp [hnames, mkExperiment_name reg p.1 p.2.run p.2.config
          p.2.checkpoint_config exp hmk]

/-- C3: for every input to the normalizer that is none of the recognized
shapes — for example the literal string "hi" — normalization fails with
`InvalidSpecError`. -/
theorem normalize_unrecognized_fails (reg : Registry) (s : String) :
    normalize reg (.other s) = .error .invalidSpec := rfl

/-- C6: normalizing an absent input returns the empty sequence, and
normalizing a single already-constructed run spec returns the one-element
sequence holding exactly it (so the element's fields equal the input's
fields). -/
theorem normalize_none_and_single (reg : Registry) (x : Experiment) :
    normalize reg .absent = .ok ([] : List Experiment) ∧
    normalize reg (.single x) = .ok [x] :=
  ⟨rfl, rfl⟩

/-- C5: a sequence of valid run specs normalizes to a sequence of the same
length with one element per input element in the same order; in particular
`[x, x]` normalizes to a two-element sequence whose elements both equal the
normalized form of `x` (the single element produced by normalizing `x`
alone). -/
theorem normalize_sequence_preserved (reg : Registry) (es : List Experiment)
    (x : Experiment) :
    (∃ l, normalize reg (.many es) = .ok l ∧ l.length = es.length ∧ l = es) ∧
    normalize reg (.many [x, x]) = .ok [x, x] ∧
    normalize reg (.single x) = .ok [x] :=
  ⟨⟨es, rfl, rfl, rfl⟩, rfl, rfl⟩

/-- C9: normalization is idempotent on canonical input — feeding any
normalized batch back to the normalizer returns an equal sequence. -/
theorem normalize_idempotent (reg : Registry) (input : SpecInput)
    (l : List Experiment) (h : normalize reg input = .ok l) :
    normalize reg (.many l) = .ok l := rfl

/-- Witness for C9 at a concrete input: the empty batch produced from an
absent input re-normalizes to itself. -/
theorem normalize_idempotent_witness :
    normalize testRegistry (.many ([] : List Experiment)) = .ok [] :=
  normalize_idempotent testRegistry .absent [] rfl

/-- C4: normalizing a mapping of names to spec-fields returns one run
definition per entry, each element's name taken from its key, in the
mapping's iteration (insertion) order. -/
theorem normalize_mapping_names (reg : Registry)
    (m : List (String × RunSpecFields)) (l : List Experiment)
    (h : normalize reg (.named m) = .ok l) :
    l.length = m.length ∧ l.map Experiment.name = m.map Prod.fst :=
  normalizeNamed_names reg m l h

/-- Witness for C4: the two-entry mapping of the test
`testConvertExperimentJSON` normalizes to two run definitions named after the
keys, in insertion order. -/
theorem normalize_mapping_names_witness :
    ([⟨"name", .registered "f1", [("script_min_iter_time_s", .nat 0)],
        CheckpointConfig.defaultPolicy⟩,
      ⟨"named", .registered "f1", [("script_min_iter_time_s", .nat 0)],
        CheckpointConfig.defaultPolicy⟩] : List Experiment).length
      = ([("name", ⟨.registered "f1",
            .mapping [("script_min_iter_time_s", .nat 0)],
            CheckpointConfig.defaultPolicy⟩),
          ("named", ⟨.registered "f1",
            .mapping [("script_min_iter_time_s", .nat 0)],
            CheckpointConfig.defaultPolicy⟩)] :
          List (String × RunSpecFields)).length ∧
    ([⟨"name", .registered "f1", [("script_min_iter_time_s", .nat 0)],
        CheckpointConfig.defaultPolicy⟩,
      ⟨"named", .registered "f1", [("script_min_iter_time_s", .nat 0)],
        CheckpointConfig.defaultPolicy⟩] : List Experiment).map Experiment.name
      = ([("name", ⟨.registered "f1",
            .mapping [("script_min_iter_time_s", .nat 0)],
            CheckpointConfig.defaultPolicy⟩),
          ("named", ⟨.registered "f1",
            .mapping [("script_min_iter_time_s", .nat 0)],
            CheckpointConfig.defaultPolicy⟩)] :
          List (String × RunSpecFields)).map Prod.fst :=
  normalize_mapping_names testRegistry _ _ rfl

/-- C1: with a checkpoint policy that sets `checkpoint_at_end` or a
non-`None` `checkpoint_frequency`, constructing a run definition whose
trainable resolves to a function trainable fails with `CheckpointPolicyError`
naming an offending field, while the same construction with a class trainable
succeeds. -/
theorem checkpoint_policy_validation (reg : Registry) (name : String)
    (run : Trainable) (m : ConfigMap) (ckpt : CheckpointConfig)
    (hreq : ckpt.checkpoint_at_end = true ∨ ckpt.checkpoint_frequency ≠ none) :
    (resolveKind reg run = .functionKind →
      ∃ field, mkExperiment reg name run (.mapping m) ckpt
        = .error (.checkpointPolicy field)) ∧
    (resolveKind reg run = .classKind → name ≠ "" →
      mkExperiment reg name run (.mapping m) ckpt
        = .ok ⟨name, run, m, ckpt⟩) := by
  have hcond : (ckpt.checkpoint_at_end || ckpt.checkpoint_frequency.isSome)
      = true := by
    rcases hreq with h | h
    · simp [h]
    · simp [h, Option.isSome_iff_ne_none]
  constructor
  · intro hfun
    refine ⟨if ckpt.checkpoint_at_end then "checkpoint_at_end"
      else "checkpoint_frequency", ?_⟩
    simp [mkExperiment, hcond, hfun]
  · intro hcls hname
    simp [mkExperiment, hcond, hcls, hname]

/-- Witness for C1: with `checkpoint_at_end = true`, construction fails for
the registered function trainable "f1", for a bare callable, and with
`checkpoint_frequency = 1`; it succeeds for the class trainable "cls". -/
theorem checkpoint_policy_validation_witness :
    (∃ field, mkExperiment testRegistry "foo" (.registered "f1")
      (.mapping []) ⟨true, none⟩ = .error (.checkpointPolicy field)) ∧
    (∃ field, mkExperiment testRegistry "foo" (.registered "f1")
      (.mapping []) ⟨false, some 1⟩ = .error (.checkpointPolicy field)) ∧
    (∃ field, mkExperiment testRegistry "foo" (.bareCallable 0)
      (.mapping []) ⟨true, none⟩ = .error (.checkpointPolicy field)) ∧
    mkExperiment testRegistry "foo" (.registered "cls")
      (.mapping []) ⟨true, none⟩
      = .ok ⟨"foo", .registered "cls", [], ⟨true, none⟩⟩ :=
  ⟨(checkpoint_policy_validation testRegistry "foo" (.registered "f1") []
      ⟨true, none⟩ (Or.inl rfl)).1 rfl,
   (checkpoint_policy_validation testRegistry "foo" (.registered "f1") []
      ⟨false, some 1⟩ (Or.inr (by decide))).1 rfl,
   (checkpoint_policy_validation testRegistry "foo" (.bareCallable 0) []
      ⟨true, none⟩ (Or.inl rfl)).1 rfl,
   (checkpoint_policy_validation testRegistry "foo" (.registered "cls") []
      ⟨true, none⟩ (Or.inl rfl)).2 rfl (by decide)⟩

/-- C2 counterexample: the claim states that a config object exposing a
correct "to mapping" conversion yielding the mapping with `valid ↦ 1` is
accepted, but construction rejects it with `ConfigTypeError` — exactly as the
repository's own test `testInvalidExperimentConfig` asserts (the object must
be converted by the caller first). -/
theorem config_convertible_rejected :
    mkExperiment testRegistry "foo" (.registered "f1")
      (.convertible [("valid", .nat 1)]) CheckpointConfig.defaultPolicy
      = .error .configType := rfl

/-- C2 (amended): every config value that is not a plain mapping — including
an object exposing a "to mapping" conversion — is rejected with
`ConfigTypeError`; a plain mapping (such as the conversion's result) is
accepted, and the stored config equals that mapping. -/
theorem config_type_validation (reg : Registry) (name : String)
    (run : Trainable) (c : ConfigInput) (m : ConfigMap)
    (hnm : ∀ m', c ≠ .mapping m') (hname : name ≠ "") :
    mkExperiment reg name run c CheckpointConfig.defaultPolicy
      = .error .configType ∧
    (∃ e, mkExperiment reg name run (.mapping m) CheckpointConfig.defaultPolicy
      = .ok e ∧ e.config = m) := by
  constructor
  · cases c with
    | mapping m' => exact absurd rfl (hnm m')
    | convertible d => rfl
    | scalar s => rfl
  · refine ⟨⟨name, run, m, CheckpointConfig.defaultPolicy⟩, ?_, rfl⟩
    simp [mkExperiment, CheckpointConfig.defaultPolicy, hname]

/-- Witness for C2 (amended): the literal string config and the convertible
object of `testInvalidExperimentConfig` are both rejected, while the
converted mapping with `valid ↦ 1` is accepted and stored unchanged. -/
theorem config_type_validation_witness :
    (mkExperiment testRegistry "foo" (.registered "f1")
      (.convertible [("valid", .nat 1)]) CheckpointConfig.defaultPolicy
      = .error .configType ∧
    (∃ e, mkExperiment testRegistry "foo" (.registered "f1")
      (.mapping [("valid", .nat 1)]) CheckpointConfig.defaultPolicy
      = .ok e ∧ e.config = [("valid", .nat 1)])) ∧
    (mkExperiment testRegistry "foo" (.registered "f1")
      (.scalar "invalid") CheckpointConfig.defaultPolicy
      = .error .configType ∧
    (∃ e, mkExperiment testRegistry "foo" (.registered "f1")
      (.mapping [("valid", .nat 1)]) CheckpointConfig.defaultPolicy
      = .ok e ∧ e.config = [("valid", .nat 1)])) :=
  ⟨config_type_validation testRegistry "foo" (.registered "f1")
      (.convertible [("valid", .nat 1)]) [("valid", .nat 1)]
      (fun _ h => ConfigInput.noConfusion h) (by decide),
   config_type_validation testRegistry "foo" (.registered "f1")
      (.scalar "invalid") [("valid", .nat 1)]
      (fun _ h => ConfigInput.noConfusion h) (by decide)⟩

/-- C10 (implicit): every accepted input variant — absent, a single
already-constructed spec, a sequence of specs, a name-keyed mapping whose
entries all validate — produces a successful result, and all four results
inhabit the one concrete ordered-sequence type `List Experiment` of
`normalize`'s codomain, so downstream code iterates them uniformly. -/
theorem normalize_uniform_list (reg : Registry) (e : Experiment)
    (es : List Experiment) (m : List (String × RunSpecFields))
    (l : List Experiment) (h : normalizeNamed reg m = .ok l) :
    (∃ a : List Experiment, normalize reg .absent = .ok a) ∧
    (∃ b : List Experiment, normalize reg (.single e) = .ok b) ∧
    (∃ c : List Experiment, normalize reg (.many es) = .ok c) ∧
    (∃ d : List Experiment, normalize reg (.named m) = .ok d) :=
  ⟨⟨[], rfl⟩, ⟨[e], rfl⟩, ⟨es, rfl⟩, ⟨l, h⟩⟩

/-- Witness for C10 at concrete inputs covering all four accepted variants. -/
theorem normalize_uniform_list_witness :
    (∃ a : List Experiment, normalize testRegistry .absent = .ok a) ∧
    (∃ b : List Experiment, normalize testRegistry
      (.single ⟨"foo", .registered "f1", [], CheckpointConfig.defaultPolicy⟩)
      = .ok b) ∧
    (∃ c : List Experiment, normalize testRegistry
      (.many [⟨"foo", .registered "f1", [], CheckpointConfig.defaultPolicy⟩])
      = .ok c) ∧
    (∃ d : List Experiment, normalize testRegistry
      (.named [("a", ⟨.registered "f1", .mapping [],
        CheckpointConfig.defaultPolicy⟩)]) = .ok d) :=
  normalize_uniform_list testRegistry
    ⟨"foo", .registered "f1", [], CheckpointConfig.defaultPolicy⟩
    [⟨"foo", .registered "f1", [], CheckpointConfig.defaultPolicy⟩]
    [("a", ⟨.registered "f1", .mapping [], CheckpointConfig.defaultPolicy⟩)]
    [⟨"a", .registered "f1", [], CheckpointConfig.defaultPolicy⟩] rfl

/-- A reference list serializes exactly when both halves of a split do. -/
theorem attrsSerializable_append (a b : List (String × PyObj)) :
    attrsSerializable (a ++ b)
      = (attrsSerializable a && attrsSerializable b) := by
  induction a with
  | nil => simp [attrsSerializable]
  | cons hd tl ih =>
    obtain ⟨n, o⟩ := hd
    simp [attrsSerializable, ih, Bool.and_assoc]

/-- If a reference list serializes, each of its objects does. -/
theorem attrsSerializable_forall (l : List (String × PyObj))
    (h : attrsSerializable l = true) :
    ∀ p ∈ l, serializable p.2 = true := by
  induction l with
  | nil => intro p hp; simp at hp
  | cons hd tl ih =>
    obtain ⟨n, o⟩ := hd
    simp [attrsSerializable] at h
    intro p hp
    rcases List.mem_cons.mp hp with hp | hp
    · subst hp; exact h.1
    · exact ih h.2 p hp

/-- Every object counts for at least one traversal node. -/
theorem objCount_pos (o : PyObj) : 1 ≤ objCount o := by
  cases o <;> simp [objCount]

/-- A reference list has no more entries than traversal nodes. -/
theorem length_le_attrsCount (l : List (String × PyObj)) :
    l.length ≤ attrsCount l := by
  induction l with
  | nil => simp [attrsCount]
  | cons hd tl ih =>
    obtain ⟨n, o⟩ := hd
    have := objCount_pos o
    simp only [List.length_cons, attrsCount]
    omega

/-- Node counts add over list concatenation. -/
theorem attrsCount_append (a b : List (String × PyObj)) :
    attrsCount (a ++ b) = attrsCount a + attrsCount b := by
  induction a with
  | nil => simp [attrsCount]
  | cons hd tl ih =>
    obtain ⟨n, o⟩ := hd
    have h1 : attrsCount (((n, o) :: tl) ++ b)
        = objCount o + attrsCount (tl ++ b) := by
      simp [attrsCount]
    have h2 : attrsCount ((n, o) :: tl) = objCount o + attrsCount tl := by
      simp [attrsCount]
    rw [h1, h2, ih]
    omega

/-- The breadth-first search skips any prefix of serializable entries and
returns the first unserializable entry, given enough fuel to pop the
prefix. -/
theorem firstFailing_skip (q1 : List BfsEntry) :
    ∀ (fuel : Nat) (e : BfsEntry) (q2 : List BfsEntry),
      (∀ x ∈ q1, serializable x.2.2 = true) →
      serializable e.2.2 = false →
      q1.length < fuel →
      firstFailing fuel (q1 ++ e :: q2) = some e := by
  induction q1 with
  | nil =>
    intro fuel e q2 _ hbad hfuel
    cases fuel with
    | zero => omega
    | succ f =>
      obtain ⟨n, p, o⟩ := e
      simp only [List.nil_append, firstFailing]
      simp only at hbad
      simp [hbad]
  | cons hd tl ih =>
    intro fuel e q2 hser hbad hfuel
    cases fuel with
    | zero => omega
    | succ f =>
      obtain ⟨n, p, o⟩ := hd
      have ho : serializable o = true := hser (n, p, o) (List.mem_cons_self _ _)
      have hstep : firstFailing (f + 1) (((n, p, o) :: tl) ++ e :: q2)
          = firstFailing f ((tl ++ e :: q2) ++ childEntries p o) := by
        simp [firstFailing, ho]
      rw [hstep, List.append_assoc, List.cons_append]
      exact ih f e (q2 ++ childEntries p o)
        (fun x hx => hser x (List.mem_cons_of_mem _ hx)) hbad
        (by simp only [List.length_cons] at hfuel; omega)

/-- C7 counterexample: a callable that captures a synchronization primitive
`e` behind another unserializable capture (an open file handle `fh`) yields a
report whose root cause is the file handle, not the captured synchronization
primitive — so the claim that the report always identifies the captured
synchronization primitive fails. -/
theorem diagnose_sync_counterexample :
    diagnose ⟨[("fh", .fileHandle "log.txt"),
               ("e", .syncPrimitive "threading.Event")], []⟩
      = .report (.rootCause ("captured variable " ++ "fh") "fh"
          (.fileHandle "log.txt")) ∧
    DiagnosticReport.rootCause ("captured variable " ++ "fh") "fh"
        (.fileHandle "log.txt")
      ≠ DiagnosticReport.rootCause ("captured variable " ++ "e") "e"
        (.syncPrimitive "threading.Event") := by
  refine ⟨rfl, ?_⟩
  intro h
  injection h with hp hn hv
  exact absurd hn (by decide)

/-- C7 (amended): diagnosing a callable whose captured references hold a
synchronization primitive returns a `DiagnosticReport` (never `true`), and
the report's root cause is the first captured reference in traversal order
that fails to serialize: whenever the synchronization primitive is preceded
only by serializable captures — in particular when it is the only capture, as
in the repository test — the report identifies exactly it, with its access
path. -/
theorem diagnose_sync_capture (f : InspectableCallable)
    (pre post : List (String × PyObj)) (n k : String)
    (hsplit : f.captured_references = pre ++ (n, .syncPrimitive k) :: post) :
    (∃ r, diagnose f = .report r) ∧
    (attrsSerializable pre = true →
      diagnose f = .report (.rootCause ("captured variable " ++ n) n
        (.syncPrimitive k))) := by
  have hdry : dryRunSerializes f = false := by
    simp [dryRunSerializes, hsplit, attrsSerializable_append,
      attrsSerializable, serializable]
  constructor
  · cases hmatch : firstFailing (attrsCount f.captured_references + 1)
        (initialQueue f) with
    | none => exact ⟨.unableToIsolate, by simp [diagnose, hdry, hmatch]⟩
    | some t =>
      obtain ⟨n', p', o'⟩ := t
      exact ⟨.rootCause p' n' o', by simp [diagnose, hdry, hmatch]⟩
  · intro hpre
    have hfuel : pre.length < attrsCount f.captured_references + 1 := by
      rw [hsplit, attrsCount_append]
      have := length_le_attrsCount pre
      omega
    have hqueue : initialQueue f
        = (pre.map (fun c => (c.1, "captured variable " ++ c.1, c.2)))
          ++ ((n, "captured variable " ++ n, PyObj.syncPrimitive k)
            :: (post.map (fun c => (c.1, "captured variable " ++ c.1, c.2)))) := by
      simp [initialQueue, hsplit]
    have hff : firstFailing (attrsCount f.captured_references + 1)
        (initialQueue f)
        = some (n, "captured variable " ++ n, PyObj.syncPrimitive k) := by
      rw [hqueue]
      apply firstFailing_skip
      · intro x hx
        obtain ⟨c, hc, rfl⟩ := List.mem_map.mp hx
        exact attrsSerializable_forall pre hpre c hc
      · rfl
      · simpa using hfuel
    simp [diagnose, hdry, hff]

/-- Witness for C7 (amended) at the repository test's scenario: the callable
captures only the synchronization primitive `e`; diagnosis yields a report
and the report names that capture. -/
theorem diagnose_sync_capture_witness :
    (∃ r, diagnose ⟨[("e", .syncPrimitive "threading.Event")], []⟩
      = .report r) ∧
    diagnose ⟨[("e", .syncPrimitive "threading.Event")], []⟩
      = .report (.rootCause ("captured variable " ++ "e") "e"
          (.syncPrimitive "threading.Event")) :=
  ⟨(diagnose_sync_capture ⟨[("e", .syncPrimitive "threading.Event")], []⟩
      [] [] "e" "threading.Event" rfl).1,
   (diagnose_sync_capture ⟨[("e", .syncPrimitive "threading.Event")], []⟩
      [] [] "e" "threading.Event" rfl).2 rfl⟩

/-- C8: diagnosing a callable with no captured references — in particular one
that constructs and uses a non-serializable kind of object entirely inside
its own body — returns `true`: the dry-run serialization succeeds. -/
theorem diagnose_internal_only (f : InspectableCallable)
    (h : f.captured_references = []) : diagnose f = .isTrue := by
  simp [diagnose, dryRunSerializes, h, attrsSerializable]

/-- Witness for C8: the corrected callable of the repository test, which
builds the `threading.Event` inside its own body and captures nothing,
diagnoses to `true`. -/
theorem diagnose_internal_only_witness :
    diagnose ⟨[], [PyObj.syncPrimitive "threading.Event"]⟩ = .isTrue :=
  diagnose_internal_only ⟨[], [.syncPrimitive "threading.Event"]⟩ rfl

end RayTune
